import Mathlib

/-!
Verification of the video job processing daemon in
`AutoVideoGen/scripts/background_automation.py`.

The embedding models:
  - the jobs table of the sqlite database as a `List Job`
    (columns `id`, `title`, `script`, `status`, `file_path`);
  - the status snapshot file `automation_status.json` as a `Snapshot`
    value threaded through the functions (`update_status` performs the
    read-merge-write of the source);
  - the UI automation performed inside `launch_vrew_automation`
    (pyautogui and pyperclip calls, subprocess launch, sleeps) as an
    opaque `AdapterOutcome` describing the only four observable ways a
    dispatch can go in the source: the export file exists at the end,
    the export file does not exist, or an exception is raised by the
    automation either before or after the `processing` row update
    (both are caught by the `except Exception` clause);
  - a daemon run as a list of `CycleEvent`s, one per iteration of the
    `while True` loop: either the store answers the
    `get_planned_videos` query (with a given adapter behaviour per job
    id), or the sqlite connection raises. When the event list is
    exhausted the run ends by `KeyboardInterrupt`, which the source
    catches; a store exception is not caught (only `KeyboardInterrupt`
    is), so it ends the run through the `finally` clause and
    propagates.

Timestamps (`last_update`) and logging are side effects with no bearing
on the claims and are not modelled.
-/

/-- A row of the `videos` table. -/
structure Job where
  id : Nat
  title : String
  script : String
  status : String
  file_path : String
deriving Repr, DecidableEq

/-- The `current_video` object of the status file: `{id, title}`. -/
structure CurrentVideo where
  id : Nat
  title : String
deriving Repr, DecidableEq

/-- The persisted status snapshot (`automation_status.json`). -/
structure Snapshot where
  running : Bool
  current_video : Option CurrentVideo
  processed_count : Nat
  failed_count : Nat
deriving Repr, DecidableEq

/-- A partial update passed to `update_status`; `none` fields are left
as they are, mirroring `dict.update`. -/
structure StatusUpdate where
  running : Option Bool := none
  current_video : Option (Option CurrentVideo) := none
  processed_count : Option Nat := none
  failed_count : Option Nat := none

/-- The default snapshot returned by `get_status` when the status file
is missing or unreadable. -/
def default_status : Snapshot :=
  { running := false, current_video := none, processed_count := 0, failed_count := 0 }

/-- `update_status`: read the current snapshot, merge the given fields
into it, persist. (`last_update` stamping is not modelled.) -/
def update_status (snap : Snapshot) (u : StatusUpdate) : Snapshot :=
  { running := u.running.getD snap.running,
    current_video := u.current_video.getD snap.current_video,
    processed_count := u.processed_count.getD snap.processed_count,
    failed_count := u.failed_count.getD snap.failed_count }

/-- Ordering of jobs by ascending id, as in `ORDER BY id`. -/
def idLE (a b : Job) : Prop := a.id ≤ b.id

instance : DecidableRel idLE := fun a b => Nat.decLe a.id b.id

instance : IsTotal Job idLE := ⟨fun a b => Nat.le_total a.id b.id⟩

instance : IsTrans Job idLE := ⟨fun _ _ _ h h2 => Nat.le_trans h h2⟩

/-- `get_planned_videos`: `SELECT id, title, script FROM videos WHERE
status='planned' ORDER BY id`. Modelled as returning the matching rows,
of which the callers use only `id`, `title` and `script`. -/
def get_planned_videos (db : List Job) : List Job :=
  List.insertionSort idLE (db.filter (fun j => j.status == "planned"))

/-- The row transformer of `UPDATE videos SET status=?, file_path=?
WHERE id=?`: rows matching the id get the new status and file path,
the rest are untouched. -/
def set_row (video_id : Nat) (status file_path : String) (j : Job) : Job :=
  if j.id = video_id then { j with status := status, file_path := file_path } else j

/-- `update_video_status`: `UPDATE videos SET status=?, file_path=?
WHERE id=?` followed by a commit, a single write. The update matches
zero rows when the id is absent; sqlite reports no error in that case
and the function returns normally (and logs a success message)
regardless. -/
def update_video_status (db : List Job) (video_id : Nat) (status : String)
    (file_path : String := "") : List Job :=
  db.map (set_row video_id status file_path)

/-- Modelled from the spec: the Job Store operation
`transition(id, new_state, output_path?) -> ok | NotFound` taken from
the words of the spec, for comparison with `update_video_status`;
`none` stands for the `NotFound` failure. -/
def transition_spec (db : List Job) (video_id : Nat) (status : String)
    (file_path : String := "") : Option (List Job) :=
  if db.any (fun j => j.id == video_id) then
    some (db.map (set_row video_id status file_path))
  else
    none

/-- The `OUTPUT_DIR` constant. The absolute prefix
(`PROJECT_DIR / "output" / "videos"`) depends on the installation
location and plays no role in the claims. -/
def OUTPUT_DIR : String := "output/videos"

/-- The `safe_title` computed inside `launch_vrew_automation`:
`"".join(c if c.isalnum() else "_" for c in title)[:20]`. -/
def safe_title (title : String) : String :=
  ((title.toList.map (fun c => if c.isAlphanum then c else '_')).take 20).asString

/-- The export path built inside `launch_vrew_automation`:
`OUTPUT_DIR / f"video_{video_id}_{safe_title}.mp4"`. -/
def vrew_output_path (video_id : Nat) (title : String) : String :=
  OUTPUT_DIR ++ "/video_" ++ toString video_id ++ "_" ++ safe_title title ++ ".mp4"

/-- The observable behaviour of one invocation of the UI automation in
`launch_vrew_automation`: the export file exists at the final check
(`ok`), the export file does not exist (`noFile`), or an exception is
raised by the automation, either before the `processing` row update
(for example the `import pyautogui` at the top of the `try` block,
`raisedEarly`) or after it (`raisedLate`). All such exceptions are
caught by the `except Exception` clause of the source. -/
inductive AdapterOutcome
  | ok
  | noFile
  | raisedEarly
  | raisedLate
deriving Repr, DecidableEq

/-- `launch_vrew_automation(video_id, title, script)`. Returns the new
database, the new snapshot and the boolean result of the source
function. On the ok path the row is set to `processing`, then to
`downloaded` with the export path; on the noFile and raisedLate paths
to `processing`, then to `failed`; on the raisedEarly path the
exception fires before either the `processing` update or the
`current_video` snapshot update, and the handler sets the row straight
to `failed`. -/
def launch_vrew_automation (db : List Job) (snap : Snapshot) (video_id : Nat)
    (title : String) (o : AdapterOutcome) : List Job × Snapshot × Bool :=
  match o with
  | .raisedEarly =>
      (update_video_status db video_id "failed" "", snap, false)
  | .ok =>
      let db1 := update_video_status db video_id "processing" ""
      let snap1 := update_status snap { current_video := some (some ⟨video_id, title⟩) }
      (update_video_status db1 video_id "downloaded" (vrew_output_path video_id title),
       snap1, true)
  | .noFile =>
      let db1 := update_video_status db video_id "processing" ""
      let snap1 := update_status snap { current_video := some (some ⟨video_id, title⟩) }
      (update_video_status db1 video_id "failed" "", snap1, false)
  | .raisedLate =>
      let db1 := update_video_status db video_id "processing" ""
      let snap1 := update_status snap { current_video := some (some ⟨video_id, title⟩) }
      (update_video_status db1 video_id "failed" "", snap1, false)

/-- The body of the `for video in videos` loop of `daemon_mode`: one
dispatch followed by the counter update (`get_status` then
`update_status` with the incremented counter). The 5 second pause has
no modelled effect. -/
def daemon_dispatch (db : List Job) (snap : Snapshot) (v : Job)
    (o : AdapterOutcome) : List Job × Snapshot :=
  let r := launch_vrew_automation db snap v.id v.title o
  if r.2.2 then
    (r.1, update_status r.2.1 { processed_count := some (r.2.1.processed_count + 1) })
  else
    (r.1, update_status r.2.1 { failed_count := some (r.2.1.failed_count + 1) })

/-- The `for video in videos` loop of `daemon_mode` over one fetched
batch; also returns the list of job ids in the order they were
dispatched. -/
def run_batch (env : Nat → AdapterOutcome) :
    List Job → List Job → Snapshot → List Nat × List Job × Snapshot
  | [], db, snap => ([], db, snap)
  | v :: rest, db, snap =>
      let s := daemon_dispatch db snap v (env v.id)
      let r := run_batch env rest s.1 s.2
      (v.id :: r.1, r.2.1, r.2.2)

/-- One iteration of the `while True` loop on which the store query
succeeds: fetch the planned videos and process them in order. -/
def daemon_cycle (env : Nat → AdapterOutcome) (db : List Job) (snap : Snapshot) :
    List Nat × List Job × Snapshot :=
  run_batch env (get_planned_videos db) db snap

/-- The environment of one iteration of the `while True` loop: either
the store answers the query (`storeUp`, with the adapter behaviour for
each job id), or the sqlite connection raises (`storeDown`). -/
inductive CycleEvent
  | storeUp (env : Nat → AdapterOutcome)
  | storeDown

/-- Whether the store answered during this cycle. -/
def CycleEvent.isUp : CycleEvent → Bool
  | .storeUp _ => true
  | .storeDown => false

/-- How a call of `daemon_mode` ends. -/
inductive RunExit
  | interrupted
  | storeFailed
  | vrewMissing
deriving Repr, DecidableEq

/-- The `while True` loop of `daemon_mode`. An exhausted event list is
a `KeyboardInterrupt` arriving during the next sleep, which the source
catches; a `storeDown` event is an exception from `get_planned_videos`
that the `except KeyboardInterrupt` clause does not catch, so the loop
ends at once and the exception propagates. -/
def daemon_loop : List CycleEvent → List Job → Snapshot → RunExit × List Job × Snapshot
  | [], db, snap => (.interrupted, db, snap)
  | .storeDown :: _, db, snap => (.storeFailed, db, snap)
  | .storeUp env :: rest, db, snap =>
      let c := daemon_cycle env db snap
      daemon_loop rest c.2.1 c.2.2

/-- `daemon_mode`: write `running=true` and zeroed counters, then check
the Vrew executable; when it is missing, return at once, outside the
`try`/`finally`, so no further snapshot write happens. Otherwise run
the loop; the `finally` clause writes `running=false` and clears
`current_video` on every path out of the loop (interrupt or store
exception). -/
def daemon_mode (vrew_installed : Bool) (events : List CycleEvent)
    (db : List Job) (snap : Snapshot) : RunExit × List Job × Snapshot :=
  let snap0 := update_status snap
    { running := some true, processed_count := some 0, failed_count := some 0 }
  if vrew_installed then
    let r := daemon_loop events db snap0
    (r.1, r.2.1, update_status r.2.2 { running := some false, current_video := some none })
  else
    (.vrewMissing, db, snap0)

/-- `process_one`: fetch the planned videos; when there are none,
return `False`; otherwise dispatch `videos[0]` and return the result of
`launch_vrew_automation`. -/
def process_one (db : List Job) (snap : Snapshot) (env : Nat → AdapterOutcome) :
    Bool × List Job × Snapshot :=
  match get_planned_videos db with
  | [] => (false, db, snap)
  | v :: _ =>
      let r := launch_vrew_automation db snap v.id v.title (env v.id)
      (r.2.2, r.1, r.2.1)

/-- Exit status of `python background_automation.py --process-one`:
`main` calls `process_one` and discards its boolean result, then falls
off the end, so the interpreter exits with status 0 whenever no
exception escapes; an uncaught exception (for example the store
unreachable inside `process_one`, which has no handler) terminates the
interpreter with a nonzero status, modelled as 1. -/
def main_process_one_exit (store_ok : Bool) (db : List Job) (snap : Snapshot)
    (env : Nat → AdapterOutcome) : Nat :=
  if store_ok then
    let r := process_one db snap env
    let _ := r
    0
  else
    1

/-! Observation functions over the jobs table, used to state the
claims. -/

/-- The first row with the given id, as sqlite addresses rows by the
primary key (with distinct ids, the row with that id). -/
def find_job (db : List Job) (i : Nat) : Option Job :=
  db.find? (fun j => j.id == i)

/-- The status of the row with the given id, when present. -/
def statusOf (db : List Job) (i : Nat) : Option String :=
  (find_job db i).map Job.status

/-- The file path of the row with the given id, when present. -/
def fileOf (db : List Job) (i : Nat) : Option String :=
  (find_job db i).map Job.file_path

/-- The ids column of the table. -/
def ids (db : List Job) : List Nat :=
  db.map Job.id

/-- How many rows currently hold status `processing`. -/
def countProcessing (db : List Job) : Nat :=
  db.countP (fun j => j.status == "processing")

/-- No row holds status `processing`. -/
def processing_free (db : List Job) : Prop :=
  ∀ j ∈ db, ¬ j.status = "processing"

/-- Admissible change of one job status between two consecutive
database states: unchanged, or one forward move along
`planned → processing → \x7bdownloaded, failed\x7d` (the direct move
`planned → failed` is the `except` handler firing before the
`processing` update). In particular a job never leaves `downloaded` or
`failed`, and never moves back to `planned` or `processing`. -/
def stepOK (a b : Option String) : Prop :=
  b = a ∨
  (a = some "planned" ∧ (b = some "processing" ∨ b = some "failed")) ∨
  (a = some "processing" ∧ (b = some "downloaded" ∨ b = some "failed"))

/-- Every id makes an admissible move between the two states. -/
def stepAll (d e : List Job) : Prop :=
  ∀ i, stepOK (statusOf d i) (statusOf e i)

/-! The sequence of database states a daemon run writes, one entry per
`UPDATE` statement, in program order. These mirror the corresponding
run functions above and are tied to them by the `getLastD` lemmas
below. -/

/-- The database state after `launch_vrew_automation`, which does not
depend on the snapshot. -/
def dispatch_db (db : List Job) (i : Nat) (t : String) (o : AdapterOutcome) : List Job :=
  (launch_vrew_automation db default_status i t o).1

/-- The database states written during one `launch_vrew_automation`
call, in order. -/
def dispatch_writes (db : List Job) (i : Nat) (t : String) (o : AdapterOutcome) :
    List (List Job) :=
  match o with
  | .raisedEarly => [update_video_status db i "failed" ""]
  | .ok =>
      let db1 := update_video_status db i "processing" ""
      [db1, update_video_status db1 i "downloaded" (vrew_output_path i t)]
  | .noFile =>
      let db1 := update_video_status db i "processing" ""
      [db1, update_video_status db1 i "failed" ""]
  | .raisedLate =>
      let db1 := update_video_status db i "processing" ""
      [db1, update_video_status db1 i "failed" ""]

/-- The database state after one `for video in videos` batch. -/
def batch_db (env : Nat → AdapterOutcome) : List Job → List Job → List Job
  | [], db => db
  | v :: rest, db => batch_db env rest (dispatch_db db v.id v.title (env v.id))

/-- The database states written during one batch, in order. -/
def batch_writes (env : Nat → AdapterOutcome) : List Job → List Job → List (List Job)
  | [], _ => []
  | v :: rest, db =>
      dispatch_writes db v.id v.title (env v.id) ++
      batch_writes env rest (dispatch_db db v.id v.title (env v.id))

/-- The database state after a sequence of loop cycles. -/
def loop_db : List CycleEvent → List Job → List Job
  | [], db => db
  | .storeDown :: _, db => db
  | .storeUp env :: rest, db =>
      loop_db rest (batch_db env (get_planned_videos db) db)

/-- The database states written during a sequence of loop cycles, in
order. -/
def loop_writes : List CycleEvent → List Job → List (List Job)
  | [], _ => []
  | .storeDown :: _, _ => []
  | .storeUp env :: rest, db =>
      batch_writes env (get_planned_videos db) db ++
      loop_writes rest (batch_db env (get_planned_videos db) db)

/-- The database states written during a whole `daemon_mode` call, in
order; when the Vrew executable is missing the loop never runs and
nothing is written. -/
def daemon_db_writes (vrew_installed : Bool) (events : List CycleEvent)
    (db : List Job) : List (List Job) :=
  if vrew_installed then loop_writes events db else []

/-! Basic lemmas about the store operations. -/

theorem set_row_id (i : Nat) (st fp : String) (j : Job) :
    (set_row i st fp j).id = j.id := by
  unfold set_row
  by_cases h : j.id = i <;> simp [h]

theorem ids_update (db : List Job) (i : Nat) (st fp : String) :
    ids (update_video_status db i st fp) = ids db := by
  unfold ids update_video_status
  rw [List.map_map]
  exact List.map_congr_left fun j _ => set_row_id i st fp j

theorem find_job_update (db : List Job) (i : Nat) (st fp : String) (k : Nat) :
    find_job (update_video_status db i st fp) k =
      (find_job db k).map (set_row i st fp) := by
  unfold find_job update_video_status
  rw [List.find?_map]
  have hpred : ((fun j => j.id == k) ∘ set_row i st fp) = (fun (j : Job) => j.id == k) :=
    funext fun j => by simp [Function.comp, set_row_id]
  rw [hpred]

theorem find_job_id (db : List Job) (k : Nat) {j : Job}
    (h : find_job db k = some j) : j.id = k := by
  have := List.find?_some h
  simpa using this

theorem statusOf_update_self (db : List Job) (i : Nat) (st fp : String) :
    statusOf (update_video_status db i st fp) i =
      (statusOf db i).map (fun _ => st) := by
  unfold statusOf
  rw [find_job_update]
  cases h : find_job db i with
  | none => rfl
  | some j =>
      have hid : j.id = i := find_job_id db i h
      simp [set_row, hid]

theorem statusOf_update_ne (db : List Job) (i : Nat) (st fp : String)
    {k : Nat} (h : k ≠ i) :
    statusOf (update_video_status db i st fp) k = statusOf db k := by
  unfold statusOf
  rw [find_job_update]
  cases hf : find_job db k with
  | none => rfl
  | some j =>
      have hid : j.id = k := find_job_id db k hf
      simp [set_row, hid, h]

theorem fileOf_update_self (db : List Job) (i : Nat) (st fp : String) :
    fileOf (update_video_status db i st fp) i =
      (fileOf db i).map (fun _ => fp) := by
  unfold fileOf
  rw [find_job_update]
  cases h : find_job db i with
  | none => rfl
  | some j =>
      have hid : j.id = i := find_job_id db i h
      simp [set_row, hid]

theorem find_job_of_mem_nodup {db : List Job} (hnd : (ids db).Nodup)
    {j : Job} (hj : j ∈ db) : find_job db j.id = some j := by
  induction db with
  | nil => cases hj
  | cons a l ih =>
      rcases List.mem_cons.mp hj with rfl | hj2
      · simp [find_job]
      · have hnd2 : (ids l).Nodup := (List.nodup_cons.mp hnd).2
        have hne : a.id ≠ j.id := by
          intro he
          exact (List.nodup_cons.mp hnd).1 (he ▸ List.mem_map_of_mem Job.id hj2)
        unfold find_job at *
        simp only [List.find?]
        have : (a.id == j.id) = false := by simpa using hne
        rw [this]
        exact ih hnd2 hj2

/-! Lemmas about the number of `processing` rows. -/

theorem processing_free_iff (db : List Job) :
    processing_free db ↔ countProcessing db = 0 := by
  unfold processing_free countProcessing
  rw [List.countP_eq_zero]
  constructor
  · intro h j hj
    simpa using h j hj
  · intro h j hj
    simpa using h j hj

theorem countProcessing_update_le (db : List Job) (i : Nat) (st fp : String)
    (hst : st ≠ "processing") :
    countProcessing (update_video_status db i st fp) ≤ countProcessing db := by
  unfold countProcessing update_video_status
  rw [List.countP_map]
  apply List.countP_mono_left
  intro j _ h
  simp only [Function.comp, set_row] at h
  by_cases hij : j.id = i
  · simp [hij] at h
    exact absurd h hst
  · simpa [hij] using h

theorem processing_goes_to_target (db : List Job) (i : Nat) (fp : String)
    (hpf : processing_free db) :
    ∀ j ∈ update_video_status db i "processing" fp,
      j.status = "processing" → j.id = i := by
  intro j hj hstat
  rcases List.mem_map.mp hj with ⟨x, hx, rfl⟩
  unfold set_row at hstat ⊢
  by_cases hxi : x.id = i
  · simp [hxi]
  · simp [hxi] at hstat ⊢
    exact absurd hstat (hpf x hx)

theorem countProcessing_le_one_of_target {db : List Job} {i : Nat}
    (hnd : (ids db).Nodup)
    (h : ∀ j ∈ db, j.status = "processing" → j.id = i) :
    countProcessing db ≤ 1 := by
  unfold countProcessing
  have h1 : db.countP (fun j => j.status == "processing") ≤
      db.countP (fun j => j.id == i) := by
    apply List.countP_mono_left
    intro j hj hstat
    have : j.status = "processing" := by simpa using hstat
    simpa using h j hj this
  have h2 : db.countP (fun j => j.id == i) = (ids db).count i := by
    unfold ids
    rw [List.count_eq_countP, List.countP_map]
    rfl
  have h3 : (ids db).count i ≤ 1 := List.nodup_iff_count_le_one.mp hnd i
  omega

theorem processing_free_update {db : List Job} {i : Nat} {st fp : String}
    (h : ∀ j ∈ db, j.status = "processing" → j.id = i)
    (hst : st ≠ "processing") :
    processing_free (update_video_status db i st fp) := by
  intro j hj
  rcases List.mem_map.mp hj with ⟨x, hx, rfl⟩
  unfold set_row
  by_cases hxi : x.id = i
  · simp [hxi]
    exact hst
  · simp [hxi]
    intro hstat
    exact hxi (h x hx hstat)

/-! Chain composition helper. -/

theorem chain_append_getLastD {α : Type} {R : α → α → Prop} (a : α)
    (l1 l2 : List α) (h1 : List.Chain R a l1)
    (h2 : List.Chain R (l1.getLastD a) l2) :
    List.Chain R a (l1 ++ l2) := by
  induction l1 generalizing a with
  | nil => simpa using h2
  | cons b t ih =>
      cases h1 with
      | cons hab ht =>
          rw [List.getLastD_cons] at h2
          exact List.Chain.cons hab (ih b ht h2)

/-! Lemmas about one admissible update step. -/

theorem stepAll_update (db : List Job) (i : Nat) (st fp : String)
    (h : stepOK (statusOf db i) ((statusOf db i).map fun _ => st)) :
    stepAll db (update_video_status db i st fp) := by
  intro k
  by_cases hk : k = i
  · subst hk
    rw [statusOf_update_self]
    exact h
  · rw [statusOf_update_ne db i st fp hk]
    left
    rfl

/-! Properties of a single dispatch. -/

theorem dispatch_db_eq (db : List Job) (snap : Snapshot) (i : Nat) (t : String)
    (o : AdapterOutcome) :
    (launch_vrew_automation db snap i t o).1 = dispatch_db db i t o := by
  cases o <;> rfl

theorem two_write_good (db : List Job) (i : Nat) (st2 fp2 : String)
    (hnd : (ids db).Nodup) (hpf : processing_free db)
    (hp : statusOf db i = some "planned")
    (hstep2 : stepOK (some "processing") (some st2))
    (hst2 : st2 ≠ "processing") :
    List.Chain stepAll db
      [update_video_status db i "processing" "",
       update_video_status (update_video_status db i "processing" "") i st2 fp2] ∧
    countProcessing (update_video_status db i "processing" "") ≤ 1 ∧
    countProcessing
      (update_video_status (update_video_status db i "processing" "") i st2 fp2) ≤ 1 ∧
    processing_free
      (update_video_status (update_video_status db i "processing" "") i st2 fp2) ∧
    ids (update_video_status (update_video_status db i "processing" "") i st2 fp2) =
      ids db ∧
    (∀ k, k ≠ i →
      statusOf (update_video_status (update_video_status db i "processing" "") i st2 fp2) k =
        statusOf db k) := by
  have htarget1 : ∀ j ∈ update_video_status db i "processing" "",
      j.status = "processing" → j.id = i :=
    processing_goes_to_target db i "" hpf
  have hnd1 : (ids (update_video_status db i "processing" "")).Nodup := by
    rw [ids_update]; exact hnd
  have hpf2 : processing_free
      (update_video_status (update_video_status db i "processing" "") i st2 fp2) :=
    processing_free_update htarget1 hst2
  refine ⟨?_, ?_, ?_, hpf2, ?_, ?_⟩
  · refine List.Chain.cons ?_ (List.Chain.cons ?_ List.Chain.nil)
    · apply stepAll_update
      rw [hp]
      exact Or.inr (Or.inl ⟨rfl, Or.inl rfl⟩)
    · apply stepAll_update
      rw [statusOf_update_self, hp]
      exact hstep2
  · exact countProcessing_le_one_of_target hnd1 htarget1
  · have h0 := (processing_free_iff _).mp hpf2
    omega
  · rw [ids_update, ids_update]
  · intro k hk
    rw [statusOf_update_ne _ _ _ _ hk, statusOf_update_ne _ _ _ _ hk]

theorem dispatch_good (db : List Job) (i : Nat) (t : String) (o : AdapterOutcome)
    (hnd : (ids db).Nodup) (hpf : processing_free db)
    (hp : statusOf db i = some "planned") :
    List.Chain stepAll db (dispatch_writes db i t o) ∧
    (∀ s ∈ dispatch_writes db i t o, countProcessing s ≤ 1) ∧
    processing_free (dispatch_db db i t o) ∧
    ids (dispatch_db db i t o) = ids db ∧
    (∀ k, k ≠ i → statusOf (dispatch_db db i t o) k = statusOf db k) := by
  have htarget0 : ∀ j ∈ db, j.status = "processing" → j.id = i :=
    fun j hj hs => absurd hs (hpf j hj)
  cases o with
  | raisedEarly =>
      have hpf2 : processing_free (update_video_status db i "failed" "") :=
        processing_free_update htarget0 (by decide)
      refine ⟨?_, ?_, hpf2, ?_, ?_⟩
      · refine List.Chain.cons ?_ List.Chain.nil
        apply stepAll_update
        rw [hp]
        exact Or.inr (Or.inl ⟨rfl, Or.inr rfl⟩)
      · intro s hs
        rcases List.mem_singleton.mp hs with rfl
        rw [(processing_free_iff _).mp hpf2]
        omega
      · exact ids_update db i "failed" ""
      · intro k hk
        exact statusOf_update_ne db i "failed" "" hk
  | ok =>
      have h := two_write_good db i "downloaded" (vrew_output_path i t) hnd hpf hp
        (Or.inr (Or.inr ⟨rfl, Or.inl rfl⟩)) (by decide)
      refine ⟨h.1, ?_, h.2.2.2.1, h.2.2.2.2.1, h.2.2.2.2.2⟩
      intro s hs
      rcases List.mem_cons.mp hs with rfl | hs
      · exact h.2.1
      rcases List.mem_cons.mp hs with rfl | hs
      · exact h.2.2.1
      · cases hs
  | noFile =>
      have h := two_write_good db i "failed" "" hnd hpf hp
        (Or.inr (Or.inr ⟨rfl, Or.inr rfl⟩)) (by decide)
      refine ⟨h.1, ?_, h.2.2.2.1, h.2.2.2.2.1, h.2.2.2.2.2⟩
      intro s hs
      rcases List.mem_cons.mp hs with rfl | hs
      · exact h.2.1
      rcases List.mem_cons.mp hs with rfl | hs
      · exact h.2.2.1
      · cases hs
  | raisedLate =>
      have h := two_write_good db i "failed" "" hnd hpf hp
        (Or.inr (Or.inr ⟨rfl, Or.inr rfl⟩)) (by decide)
      refine ⟨h.1, ?_, h.2.2.2.1, h.2.2.2.2.1, h.2.2.2.2.2⟩
      intro s hs
      rcases List.mem_cons.mp hs with rfl | hs
      · exact h.2.1
      rcases List.mem_cons.mp hs with rfl | hs
      · exact h.2.2.1
      · cases hs

/-! Properties of one batch of dispatches. -/

theorem dispatch_writes_getLastD (db : List Job) (i : Nat) (t : String)
    (o : AdapterOutcome) :
    (dispatch_writes db i t o).getLastD db = dispatch_db db i t o := by
  cases o <;>
    simp [dispatch_writes, dispatch_db, launch_vrew_automation, List.getLastD_cons]

theorem batch_good (env : Nat → AdapterOutcome) (batch : List Job) (db : List Job)
    (hnd : (ids db).Nodup) (hpf : processing_free db)
    (hbatch : ∀ v ∈ batch, statusOf db v.id = some "planned")
    (hbnd : (ids batch).Nodup) :
    List.Chain stepAll db (batch_writes env batch db) ∧
    (∀ s ∈ batch_writes env batch db, countProcessing s ≤ 1) ∧
    processing_free (batch_db env batch db) ∧
    ids (batch_db env batch db) = ids db := by
  induction batch generalizing db with
  | nil =>
      refine ⟨List.Chain.nil, ?_, hpf, rfl⟩
      intro s hs
      cases hs
  | cons v rest ih =>
      have hpv : statusOf db v.id = some "planned" := hbatch v (List.mem_cons_self v rest)
      have hd := dispatch_good db v.id v.title (env v.id) hnd hpf hpv
      have hbnd2 : (v.id :: ids rest).Nodup := hbnd
      have hnd1 : (ids (dispatch_db db v.id v.title (env v.id))).Nodup := by
        rw [hd.2.2.2.1]; exact hnd
      have hbatch1 : ∀ w ∈ rest,
          statusOf (dispatch_db db v.id v.title (env v.id)) w.id = some "planned" := by
        intro w hw
        have hwne : w.id ≠ v.id := by
          intro he
          exact (List.nodup_cons.mp hbnd2).1 (he ▸ List.mem_map_of_mem Job.id hw)
        rw [hd.2.2.2.2 w.id hwne]
        exact hbatch w (List.mem_cons_of_mem v hw)
      have hrest := ih (dispatch_db db v.id v.title (env v.id)) hnd1 hd.2.2.1 hbatch1
        (List.nodup_cons.mp hbnd2).2
      refine ⟨?_, ?_, ?_, ?_⟩
      · show List.Chain stepAll db
          (dispatch_writes db v.id v.title (env v.id) ++
            batch_writes env rest (dispatch_db db v.id v.title (env v.id)))
        apply chain_append_getLastD db _ _ hd.1
        rw [dispatch_writes_getLastD]
        exact hrest.1
      · intro s hs
        have hs2 : s ∈ dispatch_writes db v.id v.title (env v.id) ++
            batch_writes env rest (dispatch_db db v.id v.title (env v.id)) := hs
        rcases List.mem_append.mp hs2 with h | h
        · exact hd.2.1 s h
        · exact hrest.2.1 s h
      · exact hrest.2.2.1
      · rw [show batch_db env (v :: rest) db =
            batch_db env rest (dispatch_db db v.id v.title (env v.id)) from rfl]
        rw [hrest.2.2.2, hd.2.2.2.1]

/-! Properties of the planned query and of whole loop runs. -/

theorem mem_get_planned (db : List Job) {v : Job} :
    v ∈ get_planned_videos db ↔ v ∈ db ∧ v.status = "planned" := by
  unfold get_planned_videos
  rw [List.Perm.mem_iff (List.perm_insertionSort idLE _)]
  simp [List.mem_filter]

theorem get_planned_ids_nodup {db : List Job} (hnd : (ids db).Nodup) :
    (ids (get_planned_videos db)).Nodup := by
  have hperm := (List.perm_insertionSort idLE
    (db.filter (fun j => j.status == "planned"))).map Job.id
  unfold get_planned_videos ids
  rw [List.Perm.nodup_iff hperm]
  exact List.Nodup.sublist ((List.filter_sublist db).map Job.id) hnd

theorem statusOf_of_planned {db : List Job} (hnd : (ids db).Nodup)
    {v : Job} (hv : v ∈ get_planned_videos db) :
    statusOf db v.id = some "planned" := by
  rcases (mem_get_planned db).mp hv with ⟨hmem, hstat⟩
  unfold statusOf
  rw [find_job_of_mem_nodup hnd hmem]
  simp [hstat]

theorem getLastD_append {α : Type} (l1 l2 : List α) (d : α) :
    (l1 ++ l2).getLastD d = l2.getLastD (l1.getLastD d) := by
  induction l1 generalizing d with
  | nil => rfl
  | cons a t ih =>
      rw [List.cons_append, List.getLastD_cons, List.getLastD_cons, ih]

theorem batch_writes_getLastD (env : Nat → AdapterOutcome) (batch : List Job)
    (db : List Job) :
    (batch_writes env batch db).getLastD db = batch_db env batch db := by
  induction batch generalizing db with
  | nil => rfl
  | cons v rest ih =>
      show ((dispatch_writes db v.id v.title (env v.id) ++
        batch_writes env rest (dispatch_db db v.id v.title (env v.id))).getLastD db) = _
      rw [getLastD_append, dispatch_writes_getLastD]
      exact ih (dispatch_db db v.id v.title (env v.id))

theorem loop_good (events : List CycleEvent) (db : List Job)
    (hnd : (ids db).Nodup) (hpf : processing_free db) :
    List.Chain stepAll db (loop_writes events db) ∧
    (∀ s ∈ loop_writes events db, countProcessing s ≤ 1) := by
  induction events generalizing db with
  | nil =>
      refine ⟨List.Chain.nil, ?_⟩
      intro s hs
      cases hs
  | cons e rest ih =>
      cases e with
      | storeDown =>
          refine ⟨List.Chain.nil, ?_⟩
          intro s hs
          cases hs
      | storeUp env =>
          have hbatch : ∀ v ∈ get_planned_videos db, statusOf db v.id = some "planned" :=
            fun v hv => statusOf_of_planned hnd hv
          have hc := batch_good env (get_planned_videos db) db hnd hpf hbatch
            (get_planned_ids_nodup hnd)
          have hnd1 : (ids (batch_db env (get_planned_videos db) db)).Nodup := by
            rw [hc.2.2.2]; exact hnd
          have hrest := ih (batch_db env (get_planned_videos db) db) hnd1 hc.2.2.1
          refine ⟨?_, ?_⟩
          · show List.Chain stepAll db
              (batch_writes env (get_planned_videos db) db ++
                loop_writes rest (batch_db env (get_planned_videos db) db))
            apply chain_append_getLastD db _ _ hc.1
            rw [batch_writes_getLastD]
            exact hrest.1
          · intro s hs
            have hs2 : s ∈ batch_writes env (get_planned_videos db) db ++
                loop_writes rest (batch_db env (get_planned_videos db) db) := hs
            rcases List.mem_append.mp hs2 with h | h
            · exact hc.2.1 s h
            · exact hrest.2 s h

/-! Coherence: the final trace state is the database the run functions
return. -/

theorem daemon_dispatch_db (db : List Job) (snap : Snapshot) (v : Job)
    (o : AdapterOutcome) :
    (daemon_dispatch db snap v o).1 = dispatch_db db v.id v.title o := by
  cases o <;> rfl

theorem run_batch_db_eq (env : Nat → AdapterOutcome) (batch : List Job)
    (db : List Job) (snap : Snapshot) :
    (run_batch env batch db snap).2.1 = batch_db env batch db := by
  induction batch generalizing db snap with
  | nil => rfl
  | cons v rest ih =>
      show (run_batch env rest (daemon_dispatch db snap v (env v.id)).1
        (daemon_dispatch db snap v (env v.id)).2).2.1 = _
      rw [ih, daemon_dispatch_db]
      rfl

theorem daemon_loop_db_eq (events : List CycleEvent) (db : List Job)
    (snap : Snapshot) :
    (daemon_loop events db snap).2.1 = loop_db events db := by
  induction events generalizing db snap with
  | nil => rfl
  | cons e rest ih =>
      cases e with
      | storeDown => rfl
      | storeUp env =>
          show (daemon_loop rest (daemon_cycle env db snap).2.1
            (daemon_cycle env db snap).2.2).2.1 = _
          rw [ih]
          unfold daemon_cycle
          rw [run_batch_db_eq]
          rfl

theorem loop_writes_getLastD (events : List CycleEvent) (db : List Job) :
    (loop_writes events db).getLastD db = loop_db events db := by
  induction events generalizing db with
  | nil => rfl
  | cons e rest ih =>
      cases e with
      | storeDown => rfl
      | storeUp env =>
          show ((batch_writes env (get_planned_videos db) db ++
            loop_writes rest (batch_db env (get_planned_videos db) db)).getLastD db) = _
          rw [getLastD_append, batch_writes_getLastD]
          exact ih (batch_db env (get_planned_videos db) db)

/-! Concrete inputs used by witnesses and counterexamples. -/

/-- The adapter environment in which every dispatch succeeds. -/
def envOk : Nat → AdapterOutcome := fun _ => AdapterOutcome.ok

/-- A clean two-job table used by the C1 witness. -/
def dbW : List Job :=
  [⟨1, "Intro", "Hello world", "planned", ""⟩,
   ⟨2, "Second", "More text", "planned", ""⟩]

/-- One successful polling cycle. -/
def eventsW : List CycleEvent := [CycleEvent.storeUp envOk]

/-- C1: during a daemon run every database write moves each job status
only forward along `planned → processing → \x7bdownloaded, failed\x7d`
(in particular no job ever leaves a terminal status or returns to
`planned` or `processing`), and every database state of the run holds
at most one `processing` row, granted distinct primary keys and no
stale `processing` row at daemon start. -/
theorem scheduler_monotone_and_single_processing
    (vrew_installed : Bool) (events : List CycleEvent) (db : List Job)
    (hnd : (ids db).Nodup) (hpf : processing_free db) :
    List.Chain stepAll db (daemon_db_writes vrew_installed events db) ∧
    ∀ s ∈ db :: daemon_db_writes vrew_installed events db, countProcessing s ≤ 1 := by
  have h0 : countProcessing db = 0 := (processing_free_iff db).mp hpf
  cases vrew_installed with
  | false =>
      rw [show daemon_db_writes false events db = [] from rfl]
      refine ⟨List.Chain.nil, ?_⟩
      intro s hs
      rcases List.mem_cons.mp hs with rfl | hs
      · omega
      · cases hs
  | true =>
      rw [show daemon_db_writes true events db = loop_writes events db from rfl]
      have h := loop_good events db hnd hpf
      refine ⟨h.1, ?_⟩
      intro s hs
      rcases List.mem_cons.mp hs with rfl | hs
      · omega
      · exact h.2 s hs

/-- Witness for C1 at a concrete clean table and one successful
cycle. -/
theorem scheduler_monotone_and_single_processing_witness :
    ((ids dbW).Nodup ∧ processing_free dbW) ∧
    (List.Chain stepAll dbW (daemon_db_writes true eventsW dbW) ∧
      ∀ s ∈ dbW :: daemon_db_writes true eventsW dbW, countProcessing s ≤ 1) :=
  ⟨⟨by decide, by unfold processing_free; decide⟩,
    scheduler_monotone_and_single_processing true eventsW dbW (by decide)
      (by unfold processing_free; decide)⟩

/-! C4: query contents, ordering and dispatch order. -/

theorem run_batch_log (env : Nat → AdapterOutcome) (batch : List Job)
    (db : List Job) (snap : Snapshot) :
    (run_batch env batch db snap).1 = batch.map Job.id := by
  induction batch generalizing db snap with
  | nil => rfl
  | cons v rest ih =>
      show v.id :: (run_batch env rest _ _).1 = _
      rw [ih]
      rfl

/-- The planned table with ids 3, 1, 2 of the C4 scenario. -/
def dbC4 : List Job :=
  [⟨3, "Third", "Script three", "planned", ""⟩,
   ⟨1, "First", "Script one", "planned", ""⟩,
   ⟨2, "Second", "Script two", "planned", ""⟩]

/-- C4: `get_planned_videos` returns exactly the rows with status
`planned`, sorted by ascending id, and one daemon cycle dispatches
precisely those jobs in that order; on the table with planned ids
3, 1, 2 the dispatch order is 1, 2, 3. -/
theorem planned_fifo_dispatch (db : List Job) (env : Nat → AdapterOutcome)
    (snap : Snapshot) :
    ((∀ v, v ∈ get_planned_videos db ↔ v ∈ db ∧ v.status = "planned") ∧
     List.Sorted idLE (get_planned_videos db) ∧
     (daemon_cycle env db snap).1 = (get_planned_videos db).map Job.id) ∧
    (daemon_cycle envOk dbC4 default_status).1 = [1, 2, 3] := by
  refine ⟨⟨fun v => mem_get_planned db, ?_, ?_⟩, ?_⟩
  · exact List.sorted_insertionSort idLE _
  · unfold daemon_cycle
    rw [run_batch_log]
  · decide

/-! C2: effects of a successful dispatch. -/

theorem daemon_dispatch_ok_eq (db : List Job) (snap : Snapshot) (v : Job) :
    daemon_dispatch db snap v AdapterOutcome.ok =
      (update_video_status (update_video_status db v.id "processing" "") v.id
        "downloaded" (vrew_output_path v.id v.title),
       { running := snap.running,
         current_video := some ⟨v.id, v.title⟩,
         processed_count := snap.processed_count + 1,
         failed_count := snap.failed_count }) := rfl

/-- C2: when the adapter path succeeds, the dispatched job ends
`downloaded` with the produced output path stored, `processed_count`
grows by exactly one and `failed_count` is unchanged. -/
theorem dispatch_success_effects (db : List Job) (snap : Snapshot) (v : Job)
    (hex : (find_job db v.id).isSome) :
    statusOf (daemon_dispatch db snap v AdapterOutcome.ok).1 v.id = some "downloaded" ∧
    fileOf (daemon_dispatch db snap v AdapterOutcome.ok).1 v.id =
      some (vrew_output_path v.id v.title) ∧
    (daemon_dispatch db snap v AdapterOutcome.ok).2.processed_count =
      snap.processed_count + 1 ∧
    (daemon_dispatch db snap v AdapterOutcome.ok).2.failed_count = snap.failed_count := by
  rcases Option.isSome_iff_exists.mp hex with ⟨j, hj⟩
  rw [daemon_dispatch_ok_eq]
  refine ⟨?_, ?_, rfl, rfl⟩
  · rw [statusOf_update_self, statusOf_update_self]
    unfold statusOf
    rw [hj]
    rfl
  · rw [fileOf_update_self]
    unfold fileOf
    rw [find_job_update, hj]
    rfl

/-- The one-job table of the C2 scenario of the spec. -/
def dbC2 : List Job := [⟨1, "Intro", "Hello world", "planned", ""⟩]

/-- Witness for C2 at the spec scenario: job 1 planned, adapter
succeeds, starting from the zeroed snapshot, so the final counts are
`processed_count = 1`, `failed_count = 0`. -/
theorem dispatch_success_effects_witness :
    (find_job dbC2 1).isSome = true ∧
    (statusOf (daemon_dispatch dbC2 default_status ⟨1, "Intro", "Hello world", "planned", ""⟩
        AdapterOutcome.ok).1 1 = some "downloaded" ∧
     fileOf (daemon_dispatch dbC2 default_status ⟨1, "Intro", "Hello world", "planned", ""⟩
        AdapterOutcome.ok).1 1 = some (vrew_output_path 1 "Intro") ∧
     (daemon_dispatch dbC2 default_status ⟨1, "Intro", "Hello world", "planned", ""⟩
        AdapterOutcome.ok).2.processed_count = default_status.processed_count + 1 ∧
     (daemon_dispatch dbC2 default_status ⟨1, "Intro", "Hello world", "planned", ""⟩
        AdapterOutcome.ok).2.failed_count = default_status.failed_count) :=
  ⟨by decide,
    dispatch_success_effects dbC2 default_status
      ⟨1, "Intro", "Hello world", "planned", ""⟩ (by decide)⟩

/-! C3: effects of a failed dispatch and continuation of the daemon. -/

theorem daemon_loop_all_up (evs : List CycleEvent) (db : List Job)
    (snap : Snapshot) (h : ∀ e ∈ evs, e.isUp = true) :
    (daemon_loop evs db snap).1 = RunExit.interrupted := by
  induction evs generalizing db snap with
  | nil => rfl
  | cons e rest ih =>
      cases e with
      | storeDown =>
          have := h CycleEvent.storeDown (List.mem_cons_self _ rest)
          simp [CycleEvent.isUp] at this
      | storeUp env =>
          exact ih (daemon_cycle env db snap).2.1 (daemon_cycle env db snap).2.2
            (fun e he => h e (List.mem_cons_of_mem _ he))

theorem daemon_dispatch_failure_eq (db : List Job) (snap : Snapshot) (v : Job)
    (o : AdapterOutcome) (ho : o ≠ AdapterOutcome.ok) :
    (daemon_dispatch db snap v o).2.failed_count = snap.failed_count + 1 ∧
    (daemon_dispatch db snap v o).2.processed_count = snap.processed_count := by
  cases o with
  | ok => exact absurd rfl ho
  | noFile => exact ⟨rfl, rfl⟩
  | raisedEarly => exact ⟨rfl, rfl⟩
  | raisedLate => exact ⟨rfl, rfl⟩

/-- C3: when the adapter fails or raises (any outcome other than a
successful export), the dispatched job ends `failed`, `failed_count`
grows by exactly one with `processed_count` unchanged, the batch loop
continues with the remaining jobs, and a run whose store never fails
always ends by interrupt, never by a crash of the daemon. -/
theorem dispatch_failure_effects (db : List Job) (snap : Snapshot) (v : Job)
    (o : AdapterOutcome) (env : Nat → AdapterOutcome) (rest : List Job)
    (ho : o ≠ AdapterOutcome.ok) (henv : env v.id = o)
    (hex : (find_job db v.id).isSome) :
    statusOf (daemon_dispatch db snap v o).1 v.id = some "failed" ∧
    (daemon_dispatch db snap v o).2.failed_count = snap.failed_count + 1 ∧
    (daemon_dispatch db snap v o).2.processed_count = snap.processed_count ∧
    run_batch env (v :: rest) db snap =
      (v.id :: (run_batch env rest (daemon_dispatch db snap v o).1
          (daemon_dispatch db snap v o).2).1,
       (run_batch env rest (daemon_dispatch db snap v o).1
          (daemon_dispatch db snap v o).2).2) ∧
    (∀ evs : List CycleEvent, (∀ e ∈ evs, e.isUp = true) →
      (daemon_loop evs db snap).1 = RunExit.interrupted) := by
  rcases Option.isSome_iff_exists.mp hex with ⟨j, hj⟩
  have hcount := daemon_dispatch_failure_eq db snap v o ho
  refine ⟨?_, hcount.1, hcount.2, ?_, ?_⟩
  · cases o with
    | ok => exact absurd rfl ho
    | raisedEarly =>
        show statusOf (update_video_status db v.id "failed" "") v.id = some "failed"
        rw [statusOf_update_self]
        unfold statusOf
        rw [hj]
        rfl
    | noFile =>
        show statusOf (update_video_status
          (update_video_status db v.id "processing" "") v.id "failed" "") v.id =
            some "failed"
        rw [statusOf_update_self, statusOf_update_self]
        unfold statusOf
        rw [hj]
        rfl
    | raisedLate =>
        show statusOf (update_video_status
          (update_video_status db v.id "processing" "") v.id "failed" "") v.id =
            some "failed"
        rw [statusOf_update_self, statusOf_update_self]
        unfold statusOf
        rw [hj]
        rfl
  · rw [show run_batch env (v :: rest) db snap =
      (v.id :: (run_batch env rest (daemon_dispatch db snap v (env v.id)).1
          (daemon_dispatch db snap v (env v.id)).2).1,
        (run_batch env rest (daemon_dispatch db snap v (env v.id)).1
          (daemon_dispatch db snap v (env v.id)).2).2) from rfl]
    rw [henv]
  · exact fun evs hup => daemon_loop_all_up evs db snap hup

/-- The adapter environment in which every dispatch raises after the
processing update. -/
def envRaise : Nat → AdapterOutcome := fun _ => AdapterOutcome.raisedLate

/-- The one-job table of the C3 scenario of the spec (job 2, adapter
raises). -/
def dbC3 : List Job := [⟨2, "Second", "More text", "planned", ""⟩]

/-- Witness for C3 at the spec scenario: job 2 planned, adapter raises,
starting from the zeroed snapshot. -/
theorem dispatch_failure_effects_witness :
    ((AdapterOutcome.raisedLate ≠ AdapterOutcome.ok) ∧
     envRaise 2 = AdapterOutcome.raisedLate ∧
     (find_job dbC3 2).isSome = true) ∧
    (statusOf (daemon_dispatch dbC3 default_status ⟨2, "Second", "More text", "planned", ""⟩
        AdapterOutcome.raisedLate).1 2 = some "failed" ∧
     (daemon_dispatch dbC3 default_status ⟨2, "Second", "More text", "planned", ""⟩
        AdapterOutcome.raisedLate).2.failed_count = default_status.failed_count + 1 ∧
     (daemon_dispatch dbC3 default_status ⟨2, "Second", "More text", "planned", ""⟩
        AdapterOutcome.raisedLate).2.processed_count = default_status.processed_count ∧
     run_batch envRaise [⟨2, "Second", "More text", "planned", ""⟩] dbC3 default_status =
      ((⟨2, "Second", "More text", "planned", ""⟩ : Job).id ::
        (run_batch envRaise []
          (daemon_dispatch dbC3 default_status ⟨2, "Second", "More text", "planned", ""⟩
            AdapterOutcome.raisedLate).1
          (daemon_dispatch dbC3 default_status ⟨2, "Second", "More text", "planned", ""⟩
            AdapterOutcome.raisedLate).2).1,
       (run_batch envRaise []
          (daemon_dispatch dbC3 default_status ⟨2, "Second", "More text", "planned", ""⟩
            AdapterOutcome.raisedLate).1
          (daemon_dispatch dbC3 default_status ⟨2, "Second", "More text", "planned", ""⟩
            AdapterOutcome.raisedLate).2).2) ∧
     (∀ evs : List CycleEvent, (∀ e ∈ evs, e.isUp = true) →
       (daemon_loop evs dbC3 default_status).1 = RunExit.interrupted)) :=
  ⟨⟨by decide, rfl, by decide⟩,
    dispatch_failure_effects dbC3 default_status
      ⟨2, "Second", "More text", "planned", ""⟩ AdapterOutcome.raisedLate envRaise []
      (by decide) rfl (by decide)⟩

/-! C5: transition on a missing id. -/

/-- The one-job table used against C5. -/
def dbC5 : List Job := [⟨1, "Intro", "Hello world", "planned", ""⟩]

/-- C5 counterexample: called with id 2, absent from the table, the
source operation completes normally and leaves the table unchanged (a
silent no-op, with the success log line emitted unconditionally), while
the operation described by the claim would fail with `NotFound`. -/
theorem transition_missing_id_counterexample :
    update_video_status dbC5 2 "failed" "" = dbC5 ∧
    transition_spec dbC5 2 "failed" "" = none := by
  constructor <;> decide

/-- C5 amended: a transition with an id absent from the table is a
silent no-op reported as success rather than a `NotFound` failure; for
a present id the row state and file path are updated in the one write
the function performs. -/
theorem transition_amended (db : List Job) (i : Nat) (st fp : String) :
    (find_job db i = none → update_video_status db i st fp = db) ∧
    (∀ j, find_job db i = some j →
      find_job (update_video_status db i st fp) i =
        some { j with status := st, file_path := fp }) := by
  constructor
  · intro hnone
    unfold update_video_status
    have hfix : ∀ j ∈ db, set_row i st fp j = j := by
      intro j hj
      have hne := List.find?_eq_none.mp hnone j hj
      unfold set_row
      simp at hne
      simp [hne]
    calc db.map (set_row i st fp) = db.map id := List.map_congr_left hfix
    _ = db := List.map_id db
  · intro j hj
    rw [find_job_update, hj]
    have hid : j.id = i := find_job_id db i hj
    simp [set_row, hid]

/-- Witness for the amended C5 at concrete inputs: the no-op on the
missing id 2 and the in-place update of the present id 1. -/
theorem transition_amended_witness :
    update_video_status dbC5 2 "failed" "" = dbC5 ∧
    find_job (update_video_status dbC5 1 "downloaded" "p") 1 =
      some ⟨1, "Intro", "Hello world", "downloaded", "p"⟩ :=
  ⟨(transition_amended dbC5 2 "failed" "").1 (by decide),
   (transition_amended dbC5 1 "downloaded" "p").2
     ⟨1, "Intro", "Hello world", "planned", ""⟩ (by decide)⟩

/-! C6: a store failure ends the run instead of being retried. -/

theorem daemon_loop_storeDown (pre post : List CycleEvent) (db : List Job)
    (snap : Snapshot) (hpre : ∀ e ∈ pre, e.isUp = true) :
    daemon_loop (pre ++ CycleEvent.storeDown :: post) db snap =
      (RunExit.storeFailed, (daemon_loop pre db snap).2) := by
  induction pre generalizing db snap with
  | nil => rfl
  | cons e rest ih =>
      cases e with
      | storeDown =>
          have := hpre CycleEvent.storeDown (List.mem_cons_self _ rest)
          simp [CycleEvent.isUp] at this
      | storeUp env =>
          show daemon_loop (rest ++ CycleEvent.storeDown :: post)
            (daemon_cycle env db snap).2.1 (daemon_cycle env db snap).2.2 = _
          rw [ih (daemon_cycle env db snap).2.1 (daemon_cycle env db snap).2.2
            (fun e he => hpre e (List.mem_cons_of_mem _ he))]
          rfl

/-- The one-job table used against C6. -/
def dbC6 : List Job := [⟨1, "Intro", "Hello world", "planned", ""⟩]

/-- The C6 counterexample events: the store fails on the first poll and
would answer on the second. -/
def eventsC6 : List CycleEvent := [CycleEvent.storeDown, CycleEvent.storeUp envOk]

/-- C6 counterexample: with a planned job in the table, a store failure
on the first polling cycle ends the whole run (the exception propagates
past `except KeyboardInterrupt`); the following good cycle never runs,
the job stays `planned` and nothing is processed — the daemon does not
retry on the next poll. -/
theorem store_outage_counterexample :
    (daemon_mode true eventsC6 dbC6 default_status).1 = RunExit.storeFailed ∧
    statusOf (daemon_mode true eventsC6 dbC6 default_status).2.1 1 = some "planned" ∧
    (daemon_mode true eventsC6 dbC6 default_status).2.2.processed_count = 0 := by
  refine ⟨rfl, ?_, rfl⟩
  decide

/-- C6 amended: a store failure during a polling cycle terminates the
daemon run at that cycle: the run result is exactly that of a run
stopped right before the failing cycle, except that it reports the
store error, and the `finally` clause still writes `running=false` and
clears `current_video` before the exception escapes. -/
theorem store_outage_terminates_run (pre post : List CycleEvent) (db : List Job)
    (snap : Snapshot) (hpre : ∀ e ∈ pre, e.isUp = true) :
    (daemon_mode true (pre ++ CycleEvent.storeDown :: post) db snap).1 =
      RunExit.storeFailed ∧
    (daemon_mode true (pre ++ CycleEvent.storeDown :: post) db snap).2 =
      (daemon_mode true pre db snap).2 ∧
    (daemon_mode true (pre ++ CycleEvent.storeDown :: post) db snap).2.2.running = false ∧
    (daemon_mode true (pre ++ CycleEvent.storeDown :: post) db snap).2.2.current_video =
      none := by
  have hmode : ∀ evs : List CycleEvent, daemon_mode true evs db snap =
      ((daemon_loop evs db (update_status snap
          { running := some true, processed_count := some 0, failed_count := some 0 })).1,
       (daemon_loop evs db (update_status snap
          { running := some true, processed_count := some 0, failed_count := some 0 })).2.1,
       update_status (daemon_loop evs db (update_status snap
          { running := some true, processed_count := some 0, failed_count := some 0 })).2.2
         { running := some false, current_video := some none }) := fun evs => rfl
  have hloop := daemon_loop_storeDown pre post db
    (update_status snap
      { running := some true, processed_count := some 0, failed_count := some 0 }) hpre
  rw [hmode (pre ++ CycleEvent.storeDown :: post), hmode pre, hloop]
  exact ⟨rfl, rfl, rfl, rfl⟩

/-- Witness for the amended C6: one good cycle, then the outage. -/
theorem store_outage_terminates_run_witness :
    (∀ e ∈ [CycleEvent.storeUp envOk], e.isUp = true) ∧
    ((daemon_mode true ([CycleEvent.storeUp envOk] ++ CycleEvent.storeDown :: [])
        dbC6 default_status).1 = RunExit.storeFailed ∧
     (daemon_mode true ([CycleEvent.storeUp envOk] ++ CycleEvent.storeDown :: [])
        dbC6 default_status).2 =
       (daemon_mode true [CycleEvent.storeUp envOk] dbC6 default_status).2 ∧
     (daemon_mode true ([CycleEvent.storeUp envOk] ++ CycleEvent.storeDown :: [])
        dbC6 default_status).2.2.running = false ∧
     (daemon_mode true ([CycleEvent.storeUp envOk] ++ CycleEvent.storeDown :: [])
        dbC6 default_status).2.2.current_video = none) :=
  ⟨by intro e he; rcases List.mem_singleton.mp he with rfl; rfl,
   store_outage_terminates_run [CycleEvent.storeUp envOk] [] dbC6 default_status
     (by intro e he; rcases List.mem_singleton.mp he with rfl; rfl)⟩

/-! C7: the current job is not cleared between dispatches. -/

/-- The two-job table used against C7: job 2 is still pending when the
dispatch of job 1 completes. -/
def dbC7 : List Job :=
  [⟨1, "Intro", "Hello world", "planned", ""⟩,
   ⟨2, "Second", "More text", "planned", ""⟩]

/-- C7 counterexample: after the dispatch of job 1 completes (counter
already updated, next job still pending), the snapshot still names
job 1 as `current_video` instead of showing no job in flight. -/
theorem current_video_not_cleared_counterexample :
    (daemon_dispatch dbC7 default_status ⟨1, "Intro", "Hello world", "planned", ""⟩
        AdapterOutcome.ok).2.current_video = some ⟨1, "Intro"⟩ ∧
    some (⟨1, "Intro"⟩ : CurrentVideo) ≠ none := by
  exact ⟨rfl, by decide⟩

/-- C7 amended: `current_video` is written when a dispatch starts and
is never cleared between dispatches — after each dispatch it still
names the job just dispatched (for every outcome except an exception
raised before the snapshot write, which leaves the previous value);
it is cleared only by the `finally` clause when the daemon run ends. -/
theorem current_video_cleared_only_at_exit (db : List Job) (snap : Snapshot)
    (v : Job) (o : AdapterOutcome) (events : List CycleEvent)
    (ho : o ≠ AdapterOutcome.raisedEarly) :
    (daemon_dispatch db snap v o).2.current_video = some ⟨v.id, v.title⟩ ∧
    (daemon_mode true events db snap).2.2.current_video = none := by
  constructor
  · cases o with
    | raisedEarly => exact absurd rfl ho
    | ok => rfl
    | noFile => rfl
    | raisedLate => rfl
  · rfl

/-- Witness for the amended C7 at the concrete two-job table. -/
theorem current_video_cleared_only_at_exit_witness :
    (AdapterOutcome.ok ≠ AdapterOutcome.raisedEarly) ∧
    ((daemon_dispatch dbC7 default_status ⟨1, "Intro", "Hello world", "planned", ""⟩
        AdapterOutcome.ok).2.current_video = some ⟨1, "Intro"⟩ ∧
     (daemon_mode true eventsW dbC7 default_status).2.2.current_video = none) :=
  ⟨by decide,
   current_video_cleared_only_at_exit dbC7 default_status
     ⟨1, "Intro", "Hello world", "planned", ""⟩ AdapterOutcome.ok eventsW (by decide)⟩

/-! C8: the file path field across daemon writes. -/

/-- A stored output path implies the row is `downloaded`; rows in any
other state hold the empty path (the schema convention for "no path"). -/
def path_ok (db : List Job) : Prop :=
  ∀ j ∈ db, j.file_path ≠ "" → j.status = "downloaded"

theorem path_ok_update {db : List Job} (h : path_ok db) (i : Nat)
    (st fp : String) (hcase : fp = "" ∨ st = "downloaded") :
    path_ok (update_video_status db i st fp) := by
  intro j hj
  rcases List.mem_map.mp hj with ⟨x, hx, rfl⟩
  unfold set_row
  by_cases hxi : x.id = i
  · rcases hcase with rfl | rfl
    · simp [hxi]
    · simp [hxi]
  · simp [hxi]
    exact h x hx

theorem path_ok_dispatch {db : List Job} (h : path_ok db) (i : Nat) (t : String)
    (o : AdapterOutcome) :
    (∀ s ∈ dispatch_writes db i t o, path_ok s) ∧
    path_ok (dispatch_db db i t o) := by
  cases o with
  | raisedEarly =>
      have h1 := path_ok_update h i "failed" "" (Or.inl rfl)
      refine ⟨?_, h1⟩
      intro s hs
      rcases List.mem_singleton.mp hs with rfl
      exact h1
  | ok =>
      have h1 := path_ok_update h i "processing" "" (Or.inl rfl)
      have h2 := path_ok_update h1 i "downloaded" (vrew_output_path i t) (Or.inr rfl)
      refine ⟨?_, h2⟩
      intro s hs
      rcases List.mem_cons.mp hs with rfl | hs
      · exact h1
      rcases List.mem_cons.mp hs with rfl | hs
      · exact h2
      · cases hs
  | noFile =>
      have h1 := path_ok_update h i "processing" "" (Or.inl rfl)
      have h2 := path_ok_update h1 i "failed" "" (Or.inl rfl)
      refine ⟨?_, h2⟩
      intro s hs
      rcases List.mem_cons.mp hs with rfl | hs
      · exact h1
      rcases List.mem_cons.mp hs with rfl | hs
      · exact h2
      · cases hs
  | raisedLate =>
      have h1 := path_ok_update h i "processing" "" (Or.inl rfl)
      have h2 := path_ok_update h1 i "failed" "" (Or.inl rfl)
      refine ⟨?_, h2⟩
      intro s hs
      rcases List.mem_cons.mp hs with rfl | hs
      · exact h1
      rcases List.mem_cons.mp hs with rfl | hs
      · exact h2
      · cases hs

theorem path_ok_batch {db : List Job} (h : path_ok db)
    (env : Nat → AdapterOutcome) (batch : List Job) :
    (∀ s ∈ batch_writes env batch db, path_ok s) ∧
    path_ok (batch_db env batch db) := by
  induction batch generalizing db with
  | nil =>
      refine ⟨?_, h⟩
      intro s hs
      cases hs
  | cons v rest ih =>
      have hd := path_ok_dispatch h v.id v.title (env v.id)
      have hrest := ih hd.2
      refine ⟨?_, hrest.2⟩
      intro s hs
      have hs2 : s ∈ dispatch_writes db v.id v.title (env v.id) ++
          batch_writes env rest (dispatch_db db v.id v.title (env v.id)) := hs
      rcases List.mem_append.mp hs2 with hmem | hmem
      · exact hd.1 s hmem
      · exact hrest.1 s hmem

theorem path_ok_loop {db : List Job} (h : path_ok db)
    (events : List CycleEvent) :
    ∀ s ∈ loop_writes events db, path_ok s := by
  induction events generalizing db with
  | nil =>
      intro s hs
      cases hs
  | cons e rest ih =>
      cases e with
      | storeDown =>
          intro s hs
          cases hs
      | storeUp env =>
          intro s hs
          have hb := path_ok_batch h env (get_planned_videos db)
          have hs2 : s ∈ batch_writes env (get_planned_videos db) db ++
              loop_writes rest (batch_db env (get_planned_videos db) db) := hs
          rcases List.mem_append.mp hs2 with hmem | hmem
          · exact hb.1 s hmem
          · exact ih hb.2 s hmem

/-- C8: a transition to `processing` or `failed` stores no output path
(the file path field of the row becomes empty, the schema convention
for "no path"), and across every database state a daemon run writes, a
row with a nonempty file path is `downloaded` — only the `downloaded`
transition ever stores a path. -/
theorem output_path_only_on_downloaded (db : List Job) (i : Nat)
    (vrew_installed : Bool) (events : List CycleEvent)
    (hdb : path_ok db) (hex : (find_job db i).isSome) :
    fileOf (update_video_status db i "processing" "") i = some "" ∧
    fileOf (update_video_status db i "failed" "") i = some "" ∧
    ∀ s ∈ daemon_db_writes vrew_installed events db, path_ok s := by
  rcases Option.isSome_iff_exists.mp hex with ⟨j, hj⟩
  refine ⟨?_, ?_, ?_⟩
  · rw [fileOf_update_self]
    unfold fileOf
    rw [hj]
    rfl
  · rw [fileOf_update_self]
    unfold fileOf
    rw [hj]
    rfl
  · cases vrew_installed with
    | false =>
        rw [show daemon_db_writes false events db = [] from rfl]
        intro s hs
        cases hs
    | true =>
        rw [show daemon_db_writes true events db = loop_writes events db from rfl]
        exact path_ok_loop hdb events

/-- Witness for C8 at the concrete clean table. -/
theorem output_path_only_on_downloaded_witness :
    (path_ok dbW ∧ (find_job dbW 1).isSome = true) ∧
    (fileOf (update_video_status dbW 1 "processing" "") 1 = some "" ∧
     fileOf (update_video_status dbW 1 "failed" "") 1 = some "" ∧
     ∀ s ∈ daemon_db_writes true eventsW dbW, path_ok s) :=
  ⟨⟨by unfold path_ok; decide, by decide⟩,
   output_path_only_on_downloaded dbW 1 true eventsW
     (by unfold path_ok; decide) (by decide)⟩

/-! C9: exit status of the single-shot mode. -/

/-- The one-job table used against C9. -/
def dbC9 : List Job := [⟨1, "Intro", "Hello world", "planned", ""⟩]

/-- C9 counterexample: the "nothing to do" run (empty table) and the
"processed a job" run (job 1 processed successfully) are different
outcomes of `process_one`, yet the process exits with status 0 in both
cases, because `main` discards the boolean result of `process_one` —
the exit status does not distinguish the three outcomes. -/
theorem single_shot_exit_counterexample :
    (process_one ([] : List Job) default_status envOk).1 = false ∧
    (process_one dbC9 default_status envOk).1 = true ∧
    main_process_one_exit true ([] : List Job) default_status envOk =
      main_process_one_exit true dbC9 default_status envOk := by
  exact ⟨rfl, by decide, rfl⟩

/-- C9 amended: the single-shot mode exits with status 0 alike when
there was nothing to do, when a job was processed and when the dispatch
failed (`main` discards the boolean result of `process_one`); only a
fatal uncaught error, such as the store being unreachable, makes the
interpreter exit nonzero. -/
theorem single_shot_exit_status (db : List Job) (snap : Snapshot)
    (env : Nat → AdapterOutcome) :
    main_process_one_exit true db snap env = 0 ∧
    main_process_one_exit false db snap env = 1 :=
  ⟨rfl, rfl⟩

/-! C10: daemon start with the Vrew executable missing. -/

/-- C10: when the Vrew executable is absent, `daemon_mode` has already
written `running=true` with zeroed counters into the snapshot, then
returns from outside the `try`/`finally`, so no `running=false` write
happens on this path: the jobs table is untouched and the persisted
snapshot still claims the daemon is running. -/
theorem vrew_missing_leaves_running_true (events : List CycleEvent)
    (db : List Job) (snap : Snapshot) :
    (daemon_mode false events db snap).1 = RunExit.vrewMissing ∧
    (daemon_mode false events db snap).2.1 = db ∧
    (daemon_mode false events db snap).2.2.running = true ∧
    (daemon_mode false events db snap).2.2.processed_count = 0 ∧
    (daemon_mode false events db snap).2.2.failed_count = 0 :=
  ⟨rfl, rfl, rfl, rfl, rfl⟩
